import Mathlib

/-!
Verification development for the ngtcp2 example UDP/QUIC server
(`examples/server.cc`).  The server's core pieces — the session dispatch
table, the handshake-to-datagram bridge, the crypto key-derivation step and
the version-negotiation encoder — are embedded shallowly below: pure C++
functions become Lean functions, stateful code becomes explicit state
passing, 32-bit machine arithmetic is `Nat` with explicit `% 2^32`, and
fallible calls into external libraries (OpenSSL, the ngtcp2 core, the
socket) are driven by explicit oracle records listing those calls'
outcomes.  Library functions of the repository whose sources are outside
the example file are modelled from the specification and marked as such in
their doc comments.
-/

namespace NgServer

/-! ## Handshake-to-datagram bridge (`Handler` queue state)

The `Handler` owns two byte queues: `chandshake_` (bytes produced by the
TLS engine for the client, written by `bio_write` via
`write_server_handshake`) and `shandshake_` (bytes received from the
client, written by `write_client_handshake`), with read cursors `ncread_`
and `nsread_`.  Bytes are `Nat` values; the queues are byte lists. -/

structure HState where
  chandshake : List Nat
  ncread : Nat
  shandshake : List Nat
  nsread : Nat
  deriving Repr, DecidableEq

/-- The fresh `Handler` bridge state: both queues empty, cursors zero. -/
def HState.init : HState := ⟨[], 0, [], 0⟩

/-- `Handler::write_server_handshake`: append `data` to `chandshake_`. -/
def write_server_handshake (st : HState) (data : List Nat) : HState :=
  { st with chandshake := st.chandshake ++ data }

/-- `Handler::read_server_handshake`: return the unread suffix of
`chandshake_` and advance `ncread_` to the queue's length. -/
def read_server_handshake (st : HState) : List Nat × HState :=
  (st.chandshake.drop st.ncread, { st with ncread := st.chandshake.length })

/-- `Handler::read_client_handshake`: copy out at most `buflen` unread
bytes of `shandshake_` and advance `nsread_` by the count copied. -/
def read_client_handshake (st : HState) (buflen : Nat) : List Nat × HState :=
  let n := min buflen (st.shandshake.length - st.nsread)
  ((st.shandshake.drop st.nsread).take n, { st with nsread := st.nsread + n })

/-- `Handler::write_client_handshake`: append `data` to `shandshake_`. -/
def write_client_handshake (st : HState) (data : List Nat) : HState :=
  { st with shandshake := st.shandshake ++ data }

/-- Result of the OpenSSL BIO read shim `bio_read`: the `int` return
value, the state of the retry-read flag (`BIO_set_retry_read`), and the
bytes copied into the caller's buffer. -/
structure BioResult where
  ret : Int
  retryRead : Bool
  out : List Nat
  deriving Repr, DecidableEq

/-- `bio_read`: clears the retry flags, pulls up to `len` unread bytes
from the inbound queue via `read_client_handshake`; when zero bytes are
available it sets the retry-read flag and returns `-1`, otherwise it
returns the byte count. -/
def bio_read (st : HState) (len : Nat) : BioResult × HState :=
  let r := read_client_handshake st len
  if r.1.length = 0 then (⟨-1, true, []⟩, r.2)
  else (⟨(r.1.length : Int), false, r.1⟩, r.2)

/-- The four bridge operations a running session can perform on the
queues, in any interleaving. -/
inductive BridgeOp where
  | writeServer (data : List Nat)
  | readServer
  | readClient (buflen : Nat)
  | writeClient (data : List Nat)
  deriving Repr

/-- One bridge operation acting on the queue state. -/
def bridgeStep (st : HState) : BridgeOp → HState
  | .writeServer d => write_server_handshake st d
  | .readServer => (read_server_handshake st).2
  | .readClient n => (read_client_handshake st n).2
  | .writeClient d => write_client_handshake st d

/-- A whole sequence of bridge operations from a starting state. -/
def bridgeRun (st : HState) (ops : List BridgeOp) : HState :=
  ops.foldl bridgeStep st

/-- The cursor invariant: neither read cursor exceeds its queue's
length. -/
def HInv (st : HState) : Prop :=
  st.ncread ≤ st.chandshake.length ∧ st.nsread ≤ st.shandshake.length

instance (st : HState) : Decidable (HInv st) := by
  unfold HInv; infer_instance

/-! ## Version-negotiation reserved-version hash

`generate_reserved_vesrion` (sic) in `server.cc`: an FNV-1a style 32-bit
hash over the raw `sockaddr` bytes, continued over the four bytes of
`htonl(version)` (the version in network byte order), then masked so the
low nibble of every byte carries the fixed pattern `0xa`. -/

/-- One FNV-1a round on 32-bit state: xor in the byte, multiply by the
FNV prime, reduce mod `2^32` (the C `uint32_t` arithmetic). -/
def fnvStep (h b : Nat) : Nat := ((h ^^^ b) * 0x01000193) % 2 ^ 32

/-- The four bytes of a 32-bit value in network (big-endian) byte order:
what the byte-pointer loop over `htonl(version)` visits in memory order,
on either endianness. -/
def be32 (v : Nat) : List Nat :=
  [v / 2 ^ 24 % 256, v / 2 ^ 16 % 256, v / 2 ^ 8 % 256, v % 256]

/-- `generate_reserved_vesrion` translated loop-for-loop: seed
`0x811C9DC5`, fold the address bytes, fold the network-order version
bytes, then `h &= 0xf0f0f0f0; h |= 0x0a0a0a0a`. -/
def generate_reserved_vesrion (sa : List Nat) (version : Nat) : Nat :=
  let h := sa.foldl fnvStep 0x811C9DC5
  let h := (be32 version).foldl fnvStep h
  (h &&& 0xf0f0f0f0) ||| 0x0a0a0a0a

/-- The spec's description of the same computation: a single FNV-1a pass
over the address bytes followed by the requested version's network-order
bytes, then the fixed-pattern forcing step. -/
def fnv1a32 (bytes : List Nat) : Nat := bytes.foldl fnvStep 0x811C9DC5

/-- The spec's pattern-forcing step: clear the low nibble of every byte
and set it to the alternating-bit pattern `0xa`. -/
def forceReservedPattern (h : Nat) : Nat := (h &&& 0xf0f0f0f0) ||| 0x0a0a0a0a

/-! ## Crypto key derivation (`Handler::setup_crypto_context`)

The function is a straight-line sequence of calls into the `crypto`
helpers and OpenSSL; each call's outcome is an oracle field.  Calls
returning `int` yield `0` on success; the two `derive_*` helpers return an
`ssize_t` length that is negative on failure.  The embedding mirrors the
source exactly, including which variable each error check reads: after
`auto keylen = crypto::derive_packet_protection_key(...)` the source
tests `if (rv != 0)`, i.e. the stale `rv` of the last secret-export
call, not `keylen` — the same for the three other derive calls. -/

structure CryptoOracle where
  negotiated_prf : Int
  negotiated_aead : Int
  export_server_secret : Int
  derive_key_tx : Int
  derive_iv_tx : Int
  export_client_secret : Int
  derive_key_rx : Int
  derive_iv_rx : Int
  aead_max_overhead : Nat
  deriving Repr, DecidableEq

/-- What `setup_crypto_context` has installed into the ngtcp2 connection:
the `(keylen, ivlen)` pairs passed to `ngtcp2_conn_update_tx_keys` /
`..._rx_keys` and the AEAD overhead passed to
`ngtcp2_conn_set_aead_overhead`. -/
structure CryptoInstall where
  txKeys : Option (Int × Int)
  rxKeys : Option (Int × Int)
  aeadOverhead : Option Nat
  deriving Repr, DecidableEq

/-- `Handler::setup_crypto_context`, statement by statement.  The nested
`let rv := ...` bindings shadow exactly as the C `rv` variable is
reassigned; the checks after the `derive_*` calls test that `rv`, as the
source does. -/
def setup_crypto_context (o : CryptoOracle) : Int × CryptoInstall :=
  let inst : CryptoInstall := ⟨none, none, none⟩
  let rv := o.negotiated_prf
  if rv ≠ 0 then (-1, inst) else
  let rv := o.negotiated_aead
  if rv ≠ 0 then (-1, inst) else
  let rv := o.export_server_secret
  if rv ≠ 0 then (-1, inst) else
  let keylen := o.derive_key_tx
  if rv ≠ 0 then (-1, inst) else
  let ivlen := o.derive_iv_tx
  if rv ≠ 0 then (-1, inst) else
  let inst := { inst with txKeys := some (keylen, ivlen) }
  let rv := o.export_client_secret
  if rv ≠ 0 then (-1, inst) else
  let keylen := o.derive_key_rx
  if rv ≠ 0 then (-1, inst) else
  let ivlen := o.derive_iv_rx
  if rv ≠ 0 then (-1, inst) else
  let inst := { inst with rxKeys := some (keylen, ivlen) }
  (0, { inst with aeadOverhead := some o.aead_max_overhead })

/-! ## Handshake completion path -/

/-- The per-session completion state: the latch inside the ngtcp2
connection, the populated crypto context (`crypto_ctx_` together with the
keys pushed into the engine), and a counter of how many times the
derivation step has run. -/
structure TlsSession where
  completed : Bool
  crypto_ctx : Option CryptoInstall
  deriveCount : Nat
  deriving Repr, DecidableEq

/-- Modelled from the spec: the body of `ngtcp2_conn_handshake_completed`
and the library's invocation of the `handshake_completed` callback are in
the ngtcp2 core, outside the example source.  Per the spec the derivation
step "Runs once, directly after the handshake-complete signal, never
re-entrant for a given Session": the connection latches the completion
signal and invokes the callback (which runs
`Handler::setup_crypto_context`) only on the first transition; a later
invocation of the path is ignored.  A nonzero callback result surfaces as
`NGTCP2_ERR_CALLBACK_FAILURE`, i.e. session-fatal. -/
def handshake_complete_path (st : TlsSession) (o : CryptoOracle) : Int × TlsSession :=
  if st.completed then (0, st)
  else
    let st1 : TlsSession := { st with completed := true, deriveCount := st.deriveCount + 1 }
    let r := setup_crypto_context o
    if r.1 ≠ 0 then (-1, st1)
    else (0, { st1 with crypto_ctx := some r.2 })

/-! ## Session dispatch table (`Server::on_read`) and session lifetime

The dispatcher state is the `handlers_` map (an association list from the
`create_conn_key` string to a session identity) plus the set of `Handler`
objects that are actually allocated (`alive`).  The map owns its Handlers
through `std::unique_ptr`, so `handlers_.erase(key)` also destroys the
Handler; the idle-timer callback `timeoutcb` by contrast runs `delete h`
on the raw pointer and touches no map. -/

/-- Modelled from the spec: the repository's header defining the
per-family minimum-length floors (`NGTCP2_MAX_PKTLEN_IPV4`) is not part
of the example source.  The spec requires per-family floors that differ
between IPv4 and IPv6 and exist "to mitigate amplification"; the
repository's constants are the QUIC 1280-byte minimum datagram size minus
the IPv4+UDP header overhead, 1280 − 20 − 8. -/
def NGTCP2_MAX_PKTLEN_IPV4 : Nat := 1252

/-- Modelled from the spec: the IPv6 floor, 1280 − 40 − 8.  See
`NGTCP2_MAX_PKTLEN_IPV4`. -/
def NGTCP2_MAX_PKTLEN_IPV6 : Nat := 1232

/-- Modelled from the spec: the single supported protocol version
constant from the repository's headers (the First Implementation draft).
Its exact numeral carries no weight in the claims below; what matters is
that the unsupported value `0x00000099` differs from it. -/
def NGTCP2_PROTO_VERSION : Nat := 0xff000005

/-- Modelled from the spec: the long-form packet-type tag for
version-negotiation packets. -/
def NGTCP2_PKT_VERSION_NEGOTIATION : Nat := 0x01

/-- Modelled from the spec: the long-form packet-type tag for a client's
first packet of a new session. -/
def NGTCP2_PKT_CLIENT_INITIAL : Nat := 0x02

/-- Modelled from the spec: the long-form flag bit of the header flag
byte. -/
def NGTCP2_PKT_FLAG_LONG_FORM : Nat := 0x80

/-- The wire packet header fields of spec §6: flag byte, packet type,
connection identifier, packet number, version. -/
structure PktHd where
  flags : Nat
  ptype : Nat
  conn_id : Nat
  pkt_num : Nat
  version : Nat
  deriving Repr, DecidableEq, Inhabited

/-- Modelled from the spec: `ngtcp2_accept` lives in the ngtcp2 core.
Per the spec the dispatcher "parse[s] the packet header speculatively";
an unparseable or short-form first packet is not acceptable (`-1`), a
long-form header whose version field is not the supported version asks
for version negotiation (`1`), anything else is acceptable (`0`).  The
parsed header is returned through the out parameter. -/
def ngtcp2_accept (parsed : Option PktHd) : Int × PktHd :=
  match parsed with
  | none => (-1, default)
  | some hd =>
    if hd.flags &&& NGTCP2_PKT_FLAG_LONG_FORM = 0 then (-1, hd)
    else if hd.version ≠ NGTCP2_PROTO_VERSION then (1, hd)
    else (0, hd)

/-- One iteration of the `Handler::on_write` production loop, as the
pair of outcomes the loop observes: `ngtcp2_conn_send` returned an error,
returned `0` (nothing more to send), or produced an `n`-byte datagram
which `sendto` then accepted or refused. -/
inductive ProdStep where
  | err
  | done
  | pkt (n : Nat) (sendOk : Bool)
  deriving Repr, DecidableEq

/-- The return value of `Handler::on_write` over a production-loop
trace: `-1` on a `ngtcp2_conn_send` error, `0` once the engine reports
nothing more to send, and `-1` as soon as a `sendto` fails (the source
logs the error and returns `-1`). -/
def on_write_result : List ProdStep → Int
  | [] => 0
  | .err :: _ => -1
  | .done :: _ => 0
  | .pkt _ ok :: rest => if ok then on_write_result rest else -1

/-- The datagram sizes `Handler::on_write` successfully hands to
`sendto` before the loop stops. -/
def on_write_sent : List ProdStep → List Nat
  | [] => []
  | .err :: _ => []
  | .done :: _ => []
  | .pkt n ok :: rest => if ok then n :: on_write_sent rest else []

/-- An outbound datagram of the server: either the version-negotiation
packet (a structured header followed by payload bytes) or an opaque
engine-produced datagram of a given size. -/
inductive OutMsg where
  | vn (hd : PktHd) (payload : List Nat)
  | data (n : Nat)
  deriving Repr, DecidableEq

/-- Modelled from the spec: `ngtcp2_upe_encode_version_negotiation`
(ngtcp2 core) writes "a sequence of 4-byte version values (network
order)" after the header. -/
def encode_version_negotiation (sv : List Nat) : List Nat :=
  (sv.map be32).flatten

/-- `Server::send_version_negotiation`: build a long-form header of type
version-negotiation echoing the client header's connection id and packet
number, compute the reserved version from the peer address and the
requested version, and send the packet listing
`[reserved, NGTCP2_PROTO_VERSION]`.  The packet reaches the wire only
when `sendto` accepts it; a failed `sendto` is logged and returns `-1`. -/
def send_version_negotiation (chd : PktHd) (sa : List Nat) (sendOk : Bool) :
    Int × List OutMsg :=
  let hd : PktHd := ⟨NGTCP2_PKT_FLAG_LONG_FORM, NGTCP2_PKT_VERSION_NEGOTIATION,
    chd.conn_id, chd.pkt_num, chd.version⟩
  let reserved := generate_reserved_vesrion sa chd.version
  let sv := [reserved, NGTCP2_PROTO_VERSION]
  if sendOk then (0, [.vn hd (encode_version_negotiation sv)]) else (-1, [])

/-- The dispatcher state: the `handlers_` association list (conn key to
session identity), the identities of `Handler` objects currently
allocated, and a fresh-identity counter. -/
structure Sys where
  handlers : List (String × Nat)
  alive : List Nat
  nextId : Nat
  deriving Repr, DecidableEq

/-- `handlers_.erase(key)` on the association list. -/
def eraseKey (l : List (String × Nat)) (k : String) : List (String × Nat) :=
  l.filter fun p => p.1 != k

/-- The outcomes of the library and socket calls a single
`Server::on_read` dispatch can make: the speculative header parse of the
datagram, the `sendto` outcome for a version-negotiation packet, the
`ngtcp2_conn_recv` outcome of feeding the datagram, and the production
loop's trace. -/
structure NetOracle where
  parsed : Option PktHd
  vnSendOk : Bool
  feedOk : Bool
  prod : List ProdStep
  deriving Repr, DecidableEq

/-- `Handler::on_read`: feed the datagram (`Handler::feed_data`, `-1` on
`ngtcp2_conn_recv` error), then run the `on_write` production loop. -/
def handler_on_read (o : NetOracle) : Int :=
  if o.feedOk then on_write_result o.prod else -1

/-- The datagrams a `Handler::on_read` call puts on the wire. -/
def handler_sent (o : NetOracle) : List OutMsg :=
  if o.feedOk then (on_write_sent o.prod).map OutMsg.data else []

/-- The address family of the receiving sockaddr. -/
inductive Family where
  | ipv4
  | ipv6
  | other
  deriving Repr, DecidableEq

/-- The per-family minimum-length check of `Server::on_read` (the
`switch` has no default case, so other families skip the check). -/
def tooShort (family : Family) (nread : Nat) : Bool :=
  match family with
  | .ipv4 => decide (nread < NGTCP2_MAX_PKTLEN_IPV4)
  | .ipv6 => decide (nread < NGTCP2_MAX_PKTLEN_IPV6)
  | .other => false

/-- `Server::on_read`, one datagram dispatch.  `conn_key` is the
`create_conn_key` result (empty on `getnameinfo` failure), `sa` the raw
sockaddr bytes, `buf` the datagram.  Returns the new dispatcher state and
the outbound datagrams.  Faithful to the source: an existing session is
fed and erased (destroying its Handler) on a nonzero result; for an
unseen key the length floor, `ngtcp2_accept` and the first-byte type
check run in order; a freshly created Handler whose first feed fails is
destroyed at scope exit without ever being inserted. -/
def Server_on_read (st : Sys) (family : Family) (conn_key : String)
    (sa : List Nat) (buf : List Nat) (o : NetOracle) : Sys × List OutMsg :=
  if conn_key = "" then (st, [])
  else
    match st.handlers.lookup conn_key with
    | some hid =>
        if handler_on_read o ≠ 0 then
          ({ st with handlers := eraseKey st.handlers conn_key,
                     alive := st.alive.erase hid }, handler_sent o)
        else (st, handler_sent o)
    | none =>
        if tooShort family buf.length then (st, [])
        else
          let r := ngtcp2_accept o.parsed
          if r.1 = -1 then (st, [])
          else if r.1 = 1 then (st, (send_version_negotiation r.2 sa o.vnSendOk).2)
          else if buf.headD 0 &&& 0x7f ≠ NGTCP2_PKT_CLIENT_INITIAL then (st, [])
          else
            let hid := st.nextId
            if handler_on_read o ≠ 0 then
              ({ st with nextId := hid + 1 }, handler_sent o)
            else
              ({ handlers := st.handlers ++ [(conn_key, hid)],
                 alive := st.alive ++ [hid],
                 nextId := hid + 1 }, handler_sent o)

/-- `timeoutcb`, the idle-timer callback: it logs and runs `delete h` on
the Handler raw pointer.  It does not touch the `handlers_` map — no
erase happens on this path. -/
def timeoutcb (st : Sys) (hid : Nat) : Sys :=
  { st with alive := st.alive.erase hid }

/-! ## Concrete inputs used by the evaluation theorems -/

/-- A dispatcher state with one established session `"k"`. -/
def sysOneSession : Sys := ⟨[("k", 0)], [0], 1⟩

/-- A benign oracle: feed succeeds, the engine has nothing to send. -/
def oracleBenign : NetOracle := ⟨none, true, true, [.done]⟩

/-- An oracle whose dispatch feeds fine but whose single produced
datagram hits a failing `sendto`. -/
def oracleSendFail : NetOracle := ⟨none, true, true, [.pkt 5 false]⟩

/-- A dispatcher state with one established session `"peer"`. -/
def sysC2 : Sys := ⟨[("peer", 0)], [0], 1⟩

/-- The parsed header of a long-form packet with the unsupported version
`0x00000099`. -/
def hd99 : PktHd := ⟨0x80, 2, 7, 3, 0x99⟩

/-- Oracle for a datagram parsing to `hd99`, with a working socket. -/
def oracleVn99 : NetOracle := ⟨some hd99, true, true, []⟩

/-- A crypto oracle where `crypto::derive_packet_protection_key` for the
send direction fails (returns `-1`) while every other sub-step
succeeds. -/
def oracleDeriveFail : CryptoOracle := ⟨0, 0, 0, -1, 0, 0, 0, 0, 16⟩

/-- The parsed header of a valid client-initial packet of the supported
version. -/
def hdOk : PktHd := ⟨0x80, 2, 1, 1, NGTCP2_PROTO_VERSION⟩

/-- Oracle for a parseable client-initial datagram whose
`ngtcp2_conn_recv` feed fails. -/
def oracleFeedFail : NetOracle := ⟨some hdOk, true, false, []⟩

/-- Oracle producing two datagrams where the second one's `sendto`
fails. -/
def oracleTwoPkts : NetOracle := ⟨none, true, true, [.pkt 5 true, .pkt 3 false]⟩

/-- A crypto oracle where every sub-step succeeds. -/
def oracleCryptoOk : CryptoOracle := ⟨0, 0, 0, 16, 12, 0, 16, 12, 16⟩

/-! ## Helper lemmas -/

/-- Forcing the pattern `0x0a0a0a0a` into the masked hash pins the low
nibble of each of the four bytes, whatever the hash value was. -/
theorem and_or_low_nibbles (h : Nat) :
    ((h &&& 0xf0f0f0f0) ||| 0x0a0a0a0a) &&& 0x0f0f0f0f = 0x0a0a0a0a := by
  apply Nat.eq_of_testBit_eq
  intro j
  simp only [Nat.testBit_and, Nat.testBit_or]
  by_cases hj : j < 32
  · cases hb : h.testBit j
    · interval_cases j <;> simp [hb] <;> decide
    · interval_cases j <;> simp [hb] <;> decide
  · have h1 : Nat.testBit 0x0f0f0f0f j = false := by
      apply Nat.testBit_eq_false_of_lt
      calc (0x0f0f0f0f : Nat) < 2 ^ 32 := by decide
        _ ≤ 2 ^ j := Nat.pow_le_pow_right (by decide) (by omega)
    have h2 : Nat.testBit 0x0a0a0a0a j = false := by
      apply Nat.testBit_eq_false_of_lt
      calc (0x0a0a0a0a : Nat) < 2 ^ 32 := by decide
        _ ≤ 2 ^ j := Nat.pow_le_pow_right (by decide) (by omega)
    simp [h1, h2]

/-- Every single bridge operation preserves the cursor invariant. -/
theorem bridgeStep_inv (st : HState) (op : BridgeOp) (h : HInv st) :
    HInv (bridgeStep st op) := by
  obtain ⟨h1, h2⟩ := h
  cases op <;>
    simp [bridgeStep, HInv, write_server_handshake, read_server_handshake,
      read_client_handshake, write_client_handshake] <;> omega

/-- Every sequence of bridge operations preserves the cursor invariant. -/
theorem bridgeRun_inv (st : HState) (ops : List BridgeOp) (h : HInv st) :
    HInv (bridgeRun st ops) := by
  induction ops generalizing st with
  | nil => exact h
  | cons op rest ih => exact ih _ (bridgeStep_inv st op h)

/-- A production-loop trace of successfully sent datagrams followed by a
failing `sendto` makes `Handler::on_write` return `-1`. -/
theorem on_write_result_sendfail (sizes : List Nat) (n : Nat) (rest : List ProdStep) :
    on_write_result ((sizes.map fun m => ProdStep.pkt m true) ++ ProdStep.pkt n false :: rest)
      = -1 := by
  induction sizes with
  | nil => simp [on_write_result]
  | cons a t ih => simpa [on_write_result] using ih

/-- On such a trace exactly the datagrams before the failing `sendto`
reach the wire. -/
theorem on_write_sent_sendfail (sizes : List Nat) (n : Nat) (rest : List ProdStep) :
    on_write_sent ((sizes.map fun m => ProdStep.pkt m true) ++ ProdStep.pkt n false :: rest)
      = sizes := by
  induction sizes with
  | nil => simp [on_write_sent]
  | cons a t ih => simpa [on_write_sent] using ih

/-! ## Claim theorems -/

/-- C1: evaluation of the idle-timeout path on a table holding one
established session.  When the idle timer fires, `timeoutcb` destroys the
Handler (`delete h`) but the `handlers_` entry is NOT evicted: the key
still resolves in the table, and a subsequent datagram from the same
address takes the existing-session branch (dispatching into the freed
Handler) instead of creating a brand-new Session.  This refutes the
claimed behaviour — destruction happens, eviction does not. -/
theorem idle_timeout_no_table_eviction :
    (timeoutcb sysOneSession 0).alive = [] ∧
    (timeoutcb sysOneSession 0).handlers.lookup "k" = some 0 ∧
    (Server_on_read (timeoutcb sysOneSession 0) .ipv4 "k" [] [] oracleBenign).1
      = timeoutcb sysOneSession 0 := by
  refine ⟨rfl, rfl, rfl⟩

/-- C2 counterexample: with one established session, a feed whose single
produced datagram hits a failing `sendto` makes `Handler::on_write`
return `-1`, and the dispatcher then erases the session from the table
and destroys it — refuting the claim that a socket write failure never
deletes the Session or removes it from the table. -/
theorem write_error_erases_session_cex :
    (Server_on_read sysC2 .ipv4 "peer" [] [] oracleSendFail).1.handlers = [] ∧
    (Server_on_read sysC2 .ipv4 "peer" [] [] oracleSendFail).1.alive = [] ∧
    sysC2.handlers.lookup "peer" = some 0 := by
  refine ⟨rfl, rfl, rfl⟩

/-- C2 (amended): after a datagram is fed into an existing Session the
dispatcher drains the production loop, writing each produced datagram to
the socket; when a `sendto` fails the failure is logged and the write
loop aborts with `-1`, whereupon the dispatcher removes the Session from
the table and destroys it — socket write errors are session-fatal, like
feed errors.  The datagrams produced before the failure were written. -/
theorem write_error_session_fatal (st : Sys) (family : Family) (key : String) (hid : Nat)
    (sa buf : List Nat) (sizes : List Nat) (n : Nat) (rest : List ProdStep) (o : NetOracle)
    (hkey : ¬ (key = "")) (hfound : st.handlers.lookup key = some hid)
    (hfeed : o.feedOk = true)
    (hprod : o.prod = (sizes.map fun m => ProdStep.pkt m true) ++ ProdStep.pkt n false :: rest) :
    (Server_on_read st family key sa buf o).1.handlers = eraseKey st.handlers key ∧
    (Server_on_read st family key sa buf o).1.alive = st.alive.erase hid ∧
    (Server_on_read st family key sa buf o).2 = sizes.map OutMsg.data := by
  have hres : handler_on_read o = -1 := by
    simp [handler_on_read, hfeed, hprod, on_write_result_sendfail]
  have hsent : handler_sent o = sizes.map OutMsg.data := by
    simp [handler_sent, hfeed, hprod, on_write_sent_sendfail]
  simp [Server_on_read, hkey, hfound, hres, hsent]

/-- C2 witness: the amended theorem at a concrete input — session
`"peer"`, one 5-byte datagram sent, then a failing `sendto` on a 3-byte
datagram. -/
theorem write_error_session_fatal_witness :
    (Server_on_read sysC2 .ipv4 "peer" [] [] oracleTwoPkts).1.handlers = [] ∧
    (Server_on_read sysC2 .ipv4 "peer" [] [] oracleTwoPkts).2 = [OutMsg.data 5] := by
  have h := write_error_session_fatal sysC2 .ipv4 "peer" 0 [] [] [5] 3 [] oracleTwoPkts
    (by decide) rfl rfl rfl
  refine ⟨?_, ?_⟩
  · rw [h.1]
    rfl
  · rw [h.2.2]
    rfl

/-- C3 counterexample: a 20-byte datagram from an unseen IPv4 address
carrying the unsupported version `0x00000099` is rejected by the IPv4
minimum-length floor (`20 < NGTCP2_MAX_PKTLEN_IPV4`) and silently
dropped: zero outbound datagrams, not the claimed single
version-negotiation packet. -/
theorem short_vn_scenario_dropped_cex :
    (Server_on_read ⟨[], [], 0⟩ .ipv4 "peer" [192, 0, 2, 1] (List.replicate 20 0)
        oracleVn99).2 = [] ∧
    (Server_on_read ⟨[], [], 0⟩ .ipv4 "peer" [192, 0, 2, 1] (List.replicate 20 0)
        oracleVn99).1 = ⟨[], [], 0⟩ := by
  refine ⟨rfl, rfl⟩

/-- C3 (amended): a datagram from an unseen IPv4 address that meets the
1252-byte IPv4 minimum-length floor, whose long-form header carries the
unsupported version `0x00000099`, yields exactly one outbound datagram —
a version-negotiation packet listing `[reserved, supported_version]` —
and creates no Session; a 20-byte datagram is instead dropped by the
floor with no output (see the counterexample). -/
theorem vn_scenario_with_ipv4_floor (st : Sys) (key : String) (sa buf : List Nat)
    (o : NetOracle) (hd : PktHd)
    (hkey : ¬ (key = "")) (hnone : st.handlers.lookup key = none)
    (hlen : NGTCP2_MAX_PKTLEN_IPV4 ≤ buf.length)
    (hparsed : o.parsed = some hd)
    (hlong : hd.flags &&& NGTCP2_PKT_FLAG_LONG_FORM ≠ 0)
    (hver : hd.version = 0x00000099)
    (hsend : o.vnSendOk = true) :
    (Server_on_read st .ipv4 key sa buf o).2
      = [OutMsg.vn ⟨NGTCP2_PKT_FLAG_LONG_FORM, NGTCP2_PKT_VERSION_NEGOTIATION,
            hd.conn_id, hd.pkt_num, hd.version⟩
          (encode_version_negotiation
            [generate_reserved_vesrion sa hd.version, NGTCP2_PROTO_VERSION])] ∧
    (Server_on_read st .ipv4 key sa buf o).1 = st := by
  have hlen2 : tooShort Family.ipv4 buf.length = false := by
    simp [tooShort]
    omega
  have hver2 : hd.version ≠ NGTCP2_PROTO_VERSION := by
    rw [hver]
    decide
  have hacc : ngtcp2_accept o.parsed = (1, hd) := by
    simp [ngtcp2_accept, hparsed, hlong, hver2]
  simp [Server_on_read, hkey, hnone, hlen2, hacc, send_version_negotiation, hsend]

/-- C3 witness: the amended theorem at a concrete 1252-byte datagram
from an unseen IPv4 peer with version `0x00000099`. -/
theorem vn_scenario_with_ipv4_floor_witness :
    (Server_on_read ⟨[], [], 0⟩ .ipv4 "peer" [192, 0, 2, 1] (List.replicate 1252 0)
        oracleVn99).2.length = 1 ∧
    (Server_on_read ⟨[], [], 0⟩ .ipv4 "peer" [192, 0, 2, 1] (List.replicate 1252 0)
        oracleVn99).1 = ⟨[], [], 0⟩ := by
  have h := vn_scenario_with_ipv4_floor ⟨[], [], 0⟩ "peer" [192, 0, 2, 1]
    (List.replicate 1252 0) oracleVn99 hd99 (by decide) rfl
    (by simp only [List.length_replicate]; decide) rfl (by decide) rfl rfl
  refine ⟨?_, h.2⟩
  rw [h.1]
  rfl

/-- C4: evaluation of `Handler::setup_crypto_context` at an input where
`crypto::derive_packet_protection_key` for the send direction fails
(returns `-1`) and every other sub-step succeeds.  Because the source
checks the stale `rv` instead of the derive result, the failure goes
undetected: the function returns `0` (success), installs the bogus
`keylen = -1` into the transport engine, and continues to install the
receive keys and the AEAD overhead — the Session is not aborted,
refuting the claim for the key/IV-derivation sub-steps. -/
theorem derive_failure_not_aborted :
    setup_crypto_context oracleDeriveFail = (0, ⟨some (-1, 0), some (0, 0), some 16⟩) := by
  rfl

/-- C5: the CryptoContext is populated exactly once, immediately after
handshake completion.  From a fresh session, a successful completion
populates the context from `setup_crypto_context` and bumps the
derivation counter to one; invoking the handshake-complete path a second
time — with any oracle — is ignored: it returns success and leaves the
session state (context and counter included) unchanged, so keys are
never re-derived or re-installed. -/
theorem crypto_context_populated_once (st : TlsSession) (o o2 : CryptoOracle)
    (h : st.completed = false) (hok : (setup_crypto_context o).1 = 0) :
    (handshake_complete_path st o).1 = 0 ∧
    (handshake_complete_path st o).2.crypto_ctx = some (setup_crypto_context o).2 ∧
    (handshake_complete_path st o).2.deriveCount = st.deriveCount + 1 ∧
    handshake_complete_path (handshake_complete_path st o).2 o2
      = (0, (handshake_complete_path st o).2) := by
  have h1 : handshake_complete_path st o
      = (0, ⟨true, some (setup_crypto_context o).2, st.deriveCount + 1⟩) := by
    simp [handshake_complete_path, h, hok]
  rw [h1]
  refine ⟨rfl, rfl, rfl, ?_⟩
  simp [handshake_complete_path]

/-- C5 witness: the theorem at a fresh session and an all-successful
oracle; the derivation runs once and the second invocation is a no-op. -/
theorem crypto_context_populated_once_witness :
    (handshake_complete_path ⟨false, none, 0⟩ oracleCryptoOk).2.deriveCount = 1 ∧
    handshake_complete_path (handshake_complete_path ⟨false, none, 0⟩ oracleCryptoOk).2
        oracleCryptoOk
      = (0, (handshake_complete_path ⟨false, none, 0⟩ oracleCryptoOk).2) := by
  have h := crypto_context_populated_once ⟨false, none, 0⟩ oracleCryptoOk oracleCryptoOk
    rfl (by decide)
  exact ⟨h.2.2.1, h.2.2.2⟩

/-- C6: the reserved-version generator is the FNV-1a-style 32-bit hash
(seed `0x811C9DC5`, xor-then-multiply by `0x01000193` per byte) over the
raw address bytes followed by the requested version's network-byte-order
bytes, with the fixed pattern `0xa` forced into the low nibble of every
byte (making the value syntactically distinguishable from real
versions); identical `(address, version)` pairs give identical values. -/
theorem reserved_version_hash_spec (sa sa2 : List Nat) (v v2 : Nat) :
    generate_reserved_vesrion sa v = forceReservedPattern (fnv1a32 (sa ++ be32 v)) ∧
    generate_reserved_vesrion sa v &&& 0x0f0f0f0f = 0x0a0a0a0a ∧
    (sa = sa2 → v = v2 → generate_reserved_vesrion sa v = generate_reserved_vesrion sa2 v2) := by
  refine ⟨?_, ?_, ?_⟩
  · simp [generate_reserved_vesrion, forceReservedPattern, fnv1a32, List.foldl_append]
  · exact and_or_low_nibbles _
  · rintro rfl rfl
    rfl

/-- C6 witness: the theorem at the concrete pair
`(address [192, 0, 2, 1], version 0x99)`. -/
theorem reserved_version_hash_spec_witness :
    generate_reserved_vesrion [192, 0, 2, 1] 0x99 &&& 0x0f0f0f0f = 0x0a0a0a0a ∧
    generate_reserved_vesrion [192, 0, 2, 1] 0x99
      = generate_reserved_vesrion [192, 0, 2, 1] 0x99 := by
  exact ⟨(reserved_version_hash_spec [192, 0, 2, 1] [192, 0, 2, 1] 0x99 0x99).2.1,
    (reserved_version_hash_spec [192, 0, 2, 1] [192, 0, 2, 1] 0x99 0x99).2.2 rfl rfl⟩

/-- C7: a datagram from an unrecognized peer that passes the per-family
length floor and parses to a long-form header with an unsupported
version makes the server emit exactly one Version-Negotiation datagram:
long form, type version-negotiation, the peer's connection id and packet
number echoed, payload the 4-byte network-order version values
`[reserved, NGTCP2_PROTO_VERSION]` — and the dispatcher state is
untouched (no Session created). -/
theorem version_negotiation_datagram_spec (st : Sys) (family : Family) (key : String)
    (sa buf : List Nat) (o : NetOracle) (hd : PktHd)
    (hkey : ¬ (key = "")) (hnone : st.handlers.lookup key = none)
    (hlen : tooShort family buf.length = false)
    (hparsed : o.parsed = some hd)
    (hlong : hd.flags &&& NGTCP2_PKT_FLAG_LONG_FORM ≠ 0)
    (hver : hd.version ≠ NGTCP2_PROTO_VERSION)
    (hsend : o.vnSendOk = true) :
    (Server_on_read st family key sa buf o).2
      = [OutMsg.vn ⟨NGTCP2_PKT_FLAG_LONG_FORM, NGTCP2_PKT_VERSION_NEGOTIATION,
            hd.conn_id, hd.pkt_num, hd.version⟩
          (encode_version_negotiation
            [generate_reserved_vesrion sa hd.version, NGTCP2_PROTO_VERSION])] ∧
    (Server_on_read st family key sa buf o).1 = st := by
  have hacc : ngtcp2_accept o.parsed = (1, hd) := by
    simp [ngtcp2_accept, hparsed, hlong, hver]
  simp [Server_on_read, hkey, hnone, hlen, hacc, send_version_negotiation, hsend]

/-- C7 witness: the theorem at a concrete 1232-byte datagram from an
unseen IPv6 peer carrying version `0x99`. -/
theorem version_negotiation_datagram_spec_witness :
    (Server_on_read ⟨[], [], 0⟩ .ipv6 "peer" [1, 2] (List.replicate 1232 0)
        oracleVn99).2.length = 1 ∧
    (Server_on_read ⟨[], [], 0⟩ .ipv6 "peer" [1, 2] (List.replicate 1232 0)
        oracleVn99).1 = ⟨[], [], 0⟩ := by
  have h := version_negotiation_datagram_spec ⟨[], [], 0⟩ .ipv6 "peer" [1, 2]
    (List.replicate 1232 0) oracleVn99 hd99 (by decide) rfl
    (by simp only [tooShort, List.length_replicate]; decide) rfl (by decide) (by decide) rfl
  refine ⟨?_, h.2⟩
  rw [h.1]
  rfl

/-- C8: for every state satisfying the cursor invariant and every
sequence of bridge operations, the read cursors never exceed their
queues' lengths; `read_server_handshake` returns exactly the unread
suffix and `read_client_handshake` a prefix of it (`take n`), each
advancing its cursor by precisely the number of bytes returned while
leaving queue content untouched; and the queues are append-only — every
operation extends each queue by a (possibly empty) suffix, never
removing or compacting content. -/
theorem bridge_queue_cursor_spec (st : HState) (h : HInv st) (ops : List BridgeOp)
    (op : BridgeOp) (n : Nat) (d : List Nat) :
    HInv (bridgeRun st ops) ∧
    (read_server_handshake st).1 = st.chandshake.drop st.ncread ∧
    (read_server_handshake st).2.ncread = st.ncread + (read_server_handshake st).1.length ∧
    (read_server_handshake st).2.chandshake = st.chandshake ∧
    (read_client_handshake st n).1 = (st.shandshake.drop st.nsread).take n ∧
    (read_client_handshake st n).2.nsread = st.nsread + (read_client_handshake st n).1.length ∧
    (read_client_handshake st n).2.shandshake = st.shandshake ∧
    (write_server_handshake st d).chandshake = st.chandshake ++ d ∧
    (write_client_handshake st d).shandshake = st.shandshake ++ d ∧
    (∃ t, (bridgeStep st op).chandshake = st.chandshake ++ t) ∧
    (∃ t, (bridgeStep st op).shandshake = st.shandshake ++ t) := by
  obtain ⟨h1, h2⟩ := h
  refine ⟨bridgeRun_inv st ops ⟨h1, h2⟩, rfl, ?_, rfl, ?_, ?_, rfl, rfl, rfl, ?_, ?_⟩
  · simp only [read_server_handshake, List.length_drop]
    omega
  · simp only [read_client_handshake]
    rw [List.take_eq_take]
    simp only [List.length_drop]
    omega
  · simp only [read_client_handshake, List.length_take, List.length_drop]
    omega
  · cases op with
    | writeServer d2 => exact ⟨d2, rfl⟩
    | readServer => exact ⟨[], by simp [bridgeStep, read_server_handshake]⟩
    | readClient m => exact ⟨[], by simp [bridgeStep, read_client_handshake]⟩
    | writeClient d2 => exact ⟨[], by simp [bridgeStep, write_client_handshake]⟩
  · cases op with
    | writeServer d2 => exact ⟨[], by simp [bridgeStep, write_server_handshake]⟩
    | readServer => exact ⟨[], by simp [bridgeStep, read_server_handshake]⟩
    | readClient m => exact ⟨[], by simp [bridgeStep, read_client_handshake]⟩
    | writeClient d2 => exact ⟨d2, rfl⟩

/-- C8 witness: the theorem at a concrete mid-session state. -/
theorem bridge_queue_cursor_spec_witness :
    HInv (bridgeRun ⟨[1, 2, 3], 1, [4, 5], 1⟩ [.writeServer [9]]) ∧
    (read_client_handshake ⟨[1, 2, 3], 1, [4, 5], 1⟩ 1).1 = [5] := by
  have h := bridge_queue_cursor_spec ⟨[1, 2, 3], 1, [4, 5], 1⟩ (by decide)
    [.writeServer [9]] (.writeClient [7]) 1 [8]
  refine ⟨h.1, ?_⟩
  have h2 := h.2.2.2.2.1
  rw [h2]
  rfl

/-- C9: `bio_read` with a positive `max_len`: when at least one unread
byte is in the inbound queue it returns between 1 and `max_len` bytes
(the prefix of the unread suffix), with the return value equal to the
byte count, the retry flag clear, and the cursor advanced by exactly
that count; when no unread bytes are available it signals would-block —
retry flag set, return `-1`, no bytes, cursor unmoved — never a plain
zero-byte result. -/
theorem bio_read_would_block_spec (st : HState) (len : Nat) (hlen : 0 < len) :
    (st.nsread < st.shandshake.length →
      0 < ((bio_read st len).1.out).length ∧
      ((bio_read st len).1.out).length ≤ len ∧
      (bio_read st len).1.out = (st.shandshake.drop st.nsread).take len ∧
      (bio_read st len).1.ret = (((bio_read st len).1.out).length : Int) ∧
      (bio_read st len).1.retryRead = false ∧
      (bio_read st len).2.nsread = st.nsread + ((bio_read st len).1.out).length) ∧
    (st.shandshake.length ≤ st.nsread →
      (bio_read st len).1.ret = -1 ∧
      (bio_read st len).1.retryRead = true ∧
      (bio_read st len).1.out = [] ∧
      (bio_read st len).2.nsread = st.nsread) := by
  constructor
  · intro hun
    have hlen1 : ((read_client_handshake st len).1).length
        = min len (st.shandshake.length - st.nsread) := by
      simp only [read_client_handshake, List.length_take, List.length_drop]
      omega
    have hne : ¬ (((read_client_handshake st len).1).length = 0) := by omega
    have hout : (bio_read st len).1.out = (read_client_handshake st len).1 := by
      simp [bio_read, hne]
    have hret : (bio_read st len).1.ret
        = (((read_client_handshake st len).1).length : Int) := by
      simp [bio_read, hne]
    have hretry : (bio_read st len).1.retryRead = false := by
      simp [bio_read, hne]
    have hst : (bio_read st len).2 = (read_client_handshake st len).2 := by
      simp [bio_read, hne]
    refine ⟨?_, ?_, ?_, ?_, hretry, ?_⟩
    · rw [hout]
      omega
    · rw [hout]
      omega
    · rw [hout]
      simp only [read_client_handshake]
      rw [List.take_eq_take]
      simp only [List.length_drop]
      omega
    · rw [hret, hout]
    · rw [hst, hout]
      simp only [read_client_handshake, List.length_take, List.length_drop]
      omega
  · intro hend
    have hz : ((read_client_handshake st len).1).length = 0 := by
      simp only [read_client_handshake, List.length_take, List.length_drop]
      omega
    have hout : (bio_read st len).1.out = [] := by
      simp [bio_read, hz]
    have hret : (bio_read st len).1.ret = -1 := by
      simp [bio_read, hz]
    have hretry : (bio_read st len).1.retryRead = true := by
      simp [bio_read, hz]
    have hst : (bio_read st len).2 = (read_client_handshake st len).2 := by
      simp [bio_read, hz]
    refine ⟨hret, hretry, hout, ?_⟩
    rw [hst]
    simp only [read_client_handshake, List.length_take, List.length_drop]
    omega

/-- C9 witness: the theorem at a concrete state with two unread inbound
bytes and `max_len = 3`. -/
theorem bio_read_would_block_spec_witness :
    (0 : Nat) < 3 ∧ (bio_read ⟨[], 0, [5, 6], 0⟩ 3).1.out = [5, 6] := by
  refine ⟨by decide, ?_⟩
  have h := bio_read_would_block_spec ⟨[], 0, [5, 6], 0⟩ 3 (by decide)
  have h2 := (h.1 (by decide)).2.2.1
  rw [h2]
  rfl

/-- C10: a datagram from an unseen key that passes the length floor,
`ngtcp2_accept` and the client-initial type check creates a new Handler;
if feeding that first datagram fails, the Handler is destroyed at scope
exit and never inserted — the table and the set of live Handlers are
exactly as before the datagram arrived. -/
theorem failed_first_feed_leaves_table (st : Sys) (family : Family) (key : String)
    (sa buf : List Nat) (o : NetOracle) (hd : PktHd)
    (hkey : ¬ (key = "")) (hnone : st.handlers.lookup key = none)
    (hlen : tooShort family buf.length = false)
    (hparsed : o.parsed = some hd)
    (hlong : hd.flags &&& NGTCP2_PKT_FLAG_LONG_FORM ≠ 0)
    (hver : hd.version = NGTCP2_PROTO_VERSION)
    (hinit : buf.headD 0 &&& 0x7f = NGTCP2_PKT_CLIENT_INITIAL)
    (hfail : handler_on_read o ≠ 0) :
    (Server_on_read st family key sa buf o).1.handlers = st.handlers ∧
    (Server_on_read st family key sa buf o).1.alive = st.alive := by
  have hacc : ngtcp2_accept o.parsed = (0, hd) := by
    simp [ngtcp2_accept, hparsed, hlong, hver]
  simp [Server_on_read, hkey, hnone, hlen, hacc, hinit, hfail]
  constructor <;> split <;> rfl

/-- C10 witness: the theorem at a concrete 1252-byte client-initial
datagram from an unseen IPv4 peer whose feed fails. -/
theorem failed_first_feed_leaves_table_witness :
    (Server_on_read ⟨[], [], 0⟩ .ipv4 "peer" [9] (List.replicate 1252 0x82)
        oracleFeedFail).1.handlers = [] ∧
    (Server_on_read ⟨[], [], 0⟩ .ipv4 "peer" [9] (List.replicate 1252 0x82)
        oracleFeedFail).1.alive = [] := by
  have h := failed_first_feed_leaves_table ⟨[], [], 0⟩ .ipv4 "peer" [9]
    (List.replicate 1252 0x82) oracleFeedFail hdOk (by decide) rfl
    (by simp only [tooShort, List.length_replicate]; decide) rfl
    (by decide) rfl (by simp [List.headD]; decide) (by decide)
  exact h

end NgServer
